import Mathlib

/-!
# SimpleEQ: the response-curve component of the plugin editor

A shallow embedding of `Source/PluginEditor.cpp`:

* `ResponseCurveComponent::paint` (the magnitude loop and the path loop),
* `ResponseCurveComponent::parameterValueChanged` and `timerCallback`
  (the dirty-flag handshake),
* the constructor and destructor (listener registration).

`double` values are elements of a linearly ordered field `F`; rounding is not
modelled.  The JUCE math routines the file calls (`std::log10`, `std::pow`,
`Coefficients::getMagnitudeForFrequency`) are parameters, collected in
`JuceMath`; the helpers declared in `PluginProcessor.h` are parameters,
collected in `Helpers`.
-/

namespace SimpleEQ

/-! ## Data model -/

/-- One `juce::dsp::IIR::Filter`: the editor only touches its coefficients. -/
structure Filter (C : Type) where
  coefficients : C
deriving DecidableEq, Repr

/-- The cut filter, a `ProcessorChain` of four filters: the processors
`get<0>` .. `get<3>` and the flags `isBypassed<0>` .. `isBypassed<3>`. -/
structure CutFilter (C : Type) where
  get0 : Filter C
  get1 : Filter C
  get2 : Filter C
  get3 : Filter C
  isBypassed0 : Bool
  isBypassed1 : Bool
  isBypassed2 : Bool
  isBypassed3 : Bool
deriving DecidableEq, Repr

/-- The mono chain, a `ProcessorChain` of low cut, peak and high cut
(`ChainPositions::LowCut`, `Peak`, `HighCut`), each position with its own
bypass flag. -/
structure MonoChain (C : Type) where
  lowCut : CutFilter C
  peak : Filter C
  highCut : CutFilter C
  isBypassedLowCut : Bool
  isBypassedPeak : Bool
  isBypassedHighCut : Bool
deriving DecidableEq, Repr

/-- The math routines of the libraries that `paint` calls, as parameters:
`std::log10`, `std::pow` and
`juce::dsp::IIR::Coefficients::getMagnitudeForFrequency (frequency, sampleRate)`. -/
structure JuceMath (F C : Type) where
  log10 : F → F
  pow : F → F → F
  getMagnitudeForFrequency : C → F → F → F

section Paint

variable {F C : Type} [LinearOrderedField F]

/-- The function `juce::jmax (a, b)`, which is `(a < b) ? b : a`. -/
def jmax (a b : F) : F := if a < b then b else a

/-- The constant `juce::Decibels::defaultMinusInfinitydB`, the floor that
`gainToDecibels` uses when the caller passes none. -/
def defaultMinusInfinitydB : F := -100

/-- Modelled from the spec: `juce::Decibels::gainToDecibels` is a library
routine that is not part of `PluginEditor.cpp`.  It converts a gain to decibels
as `20 * log10 (gain)` with a floor: the larger of the floor and
`log10 (gain) * 20` for a positive gain, the floor itself otherwise. -/
def gainToDecibels (J : JuceMath F C) (gain minusInfinityDb : F) : F :=
  if gain > 0 then jmax minusInfinityDb (J.log10 gain * 20) else minusInfinityDb

/-- Modelled from the spec: `juce::mapToLog10` is a library routine that is not
part of `PluginEditor.cpp`.  It maps `value0To1` logarithmically onto the range
from `logRangeMin` to `logRangeMax`:
`pow (10, value0To1 * (log10 (max) - log10 (min)) + log10 (min))`. -/
def mapToLog10 (J : JuceMath F C) (value0To1 logRangeMin logRangeMax : F) : F :=
  let logMin := J.log10 logRangeMin
  let logMax := J.log10 logRangeMax
  J.pow 10 (value0To1 * (logMax - logMin) + logMin)

/-- The frequency of position `i` in `paint`:
`mapToLog10 ((double) i / (double) responseCurveWidth, 20.0, 20000.0)`. -/
def paintFreq (J : JuceMath F C) (responseCurveWidth i : Nat) : F :=
  mapToLog10 J ((i : F) / (responseCurveWidth : F)) 20 20000

/-- The product `mag` that one pass of the loop body of `paint` accumulates at
the frequency `freq`, statement by statement: it starts at `1` and each of the
nine `if (! isBypassed) mag *= ...` statements follows in source order. -/
def paintMag (J : JuceMath F C) (monoChain : MonoChain C) (sampleRate freq : F) : F :=
  let lowCut := monoChain.lowCut
  let peak := monoChain.peak
  let highCut := monoChain.highCut
  let mag : F := 1
  let mag := if !monoChain.isBypassedPeak then
      mag * J.getMagnitudeForFrequency peak.coefficients freq sampleRate else mag
  let mag := if !lowCut.isBypassed0 then
      mag * J.getMagnitudeForFrequency lowCut.get0.coefficients freq sampleRate else mag
  let mag := if !lowCut.isBypassed1 then
      mag * J.getMagnitudeForFrequency lowCut.get1.coefficients freq sampleRate else mag
  let mag := if !lowCut.isBypassed2 then
      mag * J.getMagnitudeForFrequency lowCut.get2.coefficients freq sampleRate else mag
  let mag := if !lowCut.isBypassed3 then
      mag * J.getMagnitudeForFrequency lowCut.get3.coefficients freq sampleRate else mag
  let mag := if !highCut.isBypassed0 then
      mag * J.getMagnitudeForFrequency highCut.get0.coefficients freq sampleRate else mag
  let mag := if !highCut.isBypassed1 then
      mag * J.getMagnitudeForFrequency highCut.get1.coefficients freq sampleRate else mag
  let mag := if !highCut.isBypassed2 then
      mag * J.getMagnitudeForFrequency highCut.get2.coefficients freq sampleRate else mag
  let mag := if !highCut.isBypassed3 then
      mag * J.getMagnitudeForFrequency highCut.get3.coefficients freq sampleRate else mag
  mag

/-- The value that the loop body of `paint` stores in `mags[i]`:
`gainToDecibels (mag)` with no floor argument, so with the default floor. -/
def paintEntry (J : JuceMath F C) (monoChain : MonoChain C) (sampleRate : F)
    (responseCurveWidth i : Nat) : F :=
  gainToDecibels J (paintMag J monoChain sampleRate (paintFreq J responseCurveWidth i))
    defaultMinusInfinitydB

/-- The magnitude loop of `paint`: `mags.resize (responseCurveWidth)` gives
`responseCurveWidth` zeros, then `for (int i = 0; i < responseCurveWidth; ++i)`
writes `mags[i]`. -/
def paintMags (J : JuceMath F C) (monoChain : MonoChain C) (sampleRate : F)
    (responseCurveWidth : Nat) : List F :=
  (List.range responseCurveWidth).foldl
    (fun mags i => mags.set i (paintEntry J monoChain sampleRate responseCurveWidth i))
    (List.replicate responseCurveWidth 0)

/-! ### The product as the claim words it -/

/-- The nine stages that `paint` looks at, in source order, each as its bypass
flag and its coefficients: peak, low cut 0..3, high cut 0..3. -/
def stages (monoChain : MonoChain C) : List (Bool × C) :=
  [ (monoChain.isBypassedPeak, monoChain.peak.coefficients),
    (monoChain.lowCut.isBypassed0, monoChain.lowCut.get0.coefficients),
    (monoChain.lowCut.isBypassed1, monoChain.lowCut.get1.coefficients),
    (monoChain.lowCut.isBypassed2, monoChain.lowCut.get2.coefficients),
    (monoChain.lowCut.isBypassed3, monoChain.lowCut.get3.coefficients),
    (monoChain.highCut.isBypassed0, monoChain.highCut.get0.coefficients),
    (monoChain.highCut.isBypassed1, monoChain.highCut.get1.coefficients),
    (monoChain.highCut.isBypassed2, monoChain.highCut.get2.coefficients),
    (monoChain.highCut.isBypassed3, monoChain.highCut.get3.coefficients) ]

/-- The coefficients of the stages that are not bypassed, in source order. -/
def activeCoefficients (monoChain : MonoChain C) : List C :=
  ((stages monoChain).filter (fun s => !s.1)).map (fun s => s.2)

/-- The product of the claim: starting from `1`, the magnitude of every stage
that is not bypassed is multiplied in. -/
def stageProduct (J : JuceMath F C) (monoChain : MonoChain C) (sampleRate freq : F) : F :=
  (activeCoefficients monoChain).foldl
    (fun acc c => acc * J.getMagnitudeForFrequency c freq sampleRate) 1

/-- Two stages agree for `paint` when their bypass flags are equal and, if the
stage is not bypassed, their coefficients are equal. -/
def StageAgree (a b : Bool × C) : Prop :=
  a.1 = b.1 ∧ (a.1 = false → a.2 = b.2)

/-! ### The path loop -/

/-- The function `juce::jmap (sourceValue, sourceRangeMin, sourceRangeMax,
targetRangeMin, targetRangeMax)`. -/
def jmap (sourceValue sourceRangeMin sourceRangeMax targetRangeMin targetRangeMax : F) : F :=
  targetRangeMin
    + ((targetRangeMax - targetRangeMin) * (sourceValue - sourceRangeMin))
        / (sourceRangeMax - sourceRangeMin)

/-- A `juce::Rectangle<int>`. -/
structure Rectangle where
  x : Int
  y : Int
  w : Nat
  h : Nat
deriving DecidableEq, Repr

/-- The accessor `Rectangle::getX`. -/
def Rectangle.getX (r : Rectangle) : Int := r.x

/-- The accessor `Rectangle::getY`. -/
def Rectangle.getY (r : Rectangle) : Int := r.y

/-- The accessor `Rectangle::getWidth`. -/
def Rectangle.getWidth (r : Rectangle) : Nat := r.w

/-- The accessor `Rectangle::getBottom`, which is `y + h`. -/
def Rectangle.getBottom (r : Rectangle) : Int := r.y + r.h

/-- One element of a `juce::Path`. -/
inductive PathElement (F : Type) where
  | startNewSubPath (x y : F)
  | lineTo (x y : F)
deriving DecidableEq, Repr

/-- The indices that the path loop `for (size_t i = 1; i < mags.size (); i++)`
visits. -/
def pathLoopIndices (size : Nat) : List Nat := List.range' 1 (size - 1)

/-- The indices of `mags` that the second half of `paint` reads for a vector of
the given size: `mags.front ()` is index `0`, then the indices of the path
loop. -/
def magsReads (size : Nat) : List Nat := 0 :: pathLoopIndices size

/-- The second half of `paint`: `mags.front ()` starts the sub path, then the
path loop reads `mags[i]` for `i = 1 .. size - 1`.  A read that has no element
to return gives `none`. -/
def paintPath (mags : List F) (responseCurveArea : Rectangle) :
    Option (List (PathElement F)) :=
  let outputMin : F := (responseCurveArea.getBottom : F)
  let outputMax : F := (responseCurveArea.getY : F)
  let map := fun (input : F) => jmap input (-24) 24 outputMin outputMax
  match mags.head? with
  | none => none
  | some front =>
    (pathLoopIndices mags.length).foldlM
      (fun responseCurve (i : Nat) =>
        match mags[i]? with
        | none => none
        | some m =>
          some (responseCurve ++
            [PathElement.lineTo (((responseCurveArea.getX + (i : Int) : Int) : F)) (map m)]))
      [PathElement.startNewSubPath ((responseCurveArea.getX : Int) : F) (map front)]

end Paint

/-! ## The component and the processor it refers to -/

/-- The helpers declared in `PluginProcessor.h` that the editor calls, as
parameters: `P` is the state of the `SimpleEQAudioProcessor`, `A` its parameter
tree, `S` the `ChainSettings`, `CC` the coefficients of a cut filter. -/
structure Helpers (P A S F C CC : Type) where
  apvts : P → A
  getSampleRate : P → F
  getChainSettings : A → S
  lowCutSlope : S → Int
  highCutSlope : S → Int
  makePeakFilter : S → F → C
  makeLowCutFilter : S → F → CC
  makeHighCutFilter : S → F → CC
  updateCoefficients : C → C → C
  updateCutFilter : CutFilter C → CC → Int → CutFilter C

/-- A call that `timerCallback` makes, recorded in source order. -/
inductive Call where
  | getChainSettings
  | makePeakFilter
  | updateCoefficients
  | makeLowCutFilter
  | makeHighCutFilter
  | updateCutFilterLowCut
  | updateCutFilterHighCut
  | repaint
deriving DecidableEq, Repr

/-- The state of a `ResponseCurveComponent` together with the processor that its
member `audioProcessor` refers to: the members `monoChain` and
`parametersChanged`, the size of the component, and the record of the calls
made so far. -/
structure ResponseCurveComponent (P C : Type) where
  audioProcessor : P
  monoChain : MonoChain C
  parametersChanged : Bool
  width : Nat
  height : Nat
  calls : List Call

section Component

variable {P A S F C CC : Type}

/-- The function `juce::Atomic::compareAndSetBool (newValue, valueToCompare)`:
when the value equals `valueToCompare` it becomes `newValue` and the result is
`true`, otherwise the value stays and the result is `false`.  The pair is the
value afterwards and the result. -/
def compareAndSetBool (value newValue valueToCompare : Bool) : Bool × Bool :=
  if value = valueToCompare then (newValue, true) else (value, false)

/-- The method `ResponseCurveComponent::parameterValueChanged`:
`parametersChanged.set (true)`; both arguments are unused. -/
def parameterValueChanged (_parameterIndex : Int) (_newValue : F)
    (s : ResponseCurveComponent P C) : ResponseCurveComponent P C :=
  { s with parametersChanged := true }

/-- The condition of `timerCallback`:
`parametersChanged.compareAndSetBool (false, true)`, one atomic step. -/
def testAndClear (s : ResponseCurveComponent P C) : ResponseCurveComponent P C × Bool :=
  let r := compareAndSetBool s.parametersChanged false true
  ({ s with parametersChanged := r.1 }, r.2)

/-- The first statements of the update: `makePeakFilter` and `updateCoefficients`
on the peak filter of `monoChain`. -/
def updatePeak (H : Helpers P A S F C CC) (chainSettings : S)
    (s : ResponseCurveComponent P C) : ResponseCurveComponent P C :=
  let peakCoefficients := H.makePeakFilter chainSettings (H.getSampleRate s.audioProcessor)
  { s with
    monoChain := { s.monoChain with
      peak := { coefficients :=
        H.updateCoefficients s.monoChain.peak.coefficients peakCoefficients } }
    calls := s.calls ++ [Call.makePeakFilter, Call.updateCoefficients] }

/-- The next statements of the update: `makeLowCutFilter`, `makeHighCutFilter`
and `updateCutFilter` on the low cut of `monoChain`. -/
def updateLowCut (H : Helpers P A S F C CC) (chainSettings : S)
    (s : ResponseCurveComponent P C) : ResponseCurveComponent P C :=
  let lowCutCoefficients := H.makeLowCutFilter chainSettings (H.getSampleRate s.audioProcessor)
  { s with
    monoChain := { s.monoChain with
      lowCut := H.updateCutFilter s.monoChain.lowCut lowCutCoefficients
        (H.lowCutSlope chainSettings) }
    calls := s.calls ++
      [Call.makeLowCutFilter, Call.makeHighCutFilter, Call.updateCutFilterLowCut] }

/-- The statement `updateCutFilter` on the high cut of `monoChain`, with the
coefficients that `makeHighCutFilter` returned. -/
def updateHighCut (H : Helpers P A S F C CC) (chainSettings : S)
    (s : ResponseCurveComponent P C) : ResponseCurveComponent P C :=
  let highCutCoefficients := H.makeHighCutFilter chainSettings (H.getSampleRate s.audioProcessor)
  { s with
    monoChain := { s.monoChain with
      highCut := H.updateCutFilter s.monoChain.highCut highCutCoefficients
        (H.highCutSlope chainSettings) }
    calls := s.calls ++ [Call.updateCutFilterHighCut] }

/-- The last statement of the update: `repaint ()`. -/
def requestRepaint (s : ResponseCurveComponent P C) : ResponseCurveComponent P C :=
  { s with calls := s.calls ++ [Call.repaint] }

/-- The call `getChainSettings (audioProcessor.apvts)` that opens the update. -/
def readChainSettings (s : ResponseCurveComponent P C) : ResponseCurveComponent P C :=
  { s with calls := s.calls ++ [Call.getChainSettings] }

/-- The statements of the update after `chainSettings` has been read, in source
order. -/
def updateStatements (H : Helpers P A S F C CC) (chainSettings : S) :
    List (ResponseCurveComponent P C → ResponseCurveComponent P C) :=
  [readChainSettings, updatePeak H chainSettings, updateLowCut H chainSettings,
    updateHighCut H chainSettings, requestRepaint]

/-- Runs statements one after the other. -/
def runStatements (stmts : List (ResponseCurveComponent P C → ResponseCurveComponent P C))
    (s : ResponseCurveComponent P C) : ResponseCurveComponent P C :=
  stmts.foldl (fun t f => f t) s

/-- The body of the `if` in `timerCallback`: the update of `monoChain` and the
repaint request. -/
def timerUpdate (H : Helpers P A S F C CC) (s : ResponseCurveComponent P C) :
    ResponseCurveComponent P C :=
  let chainSettings := H.getChainSettings (H.apvts s.audioProcessor)
  runStatements (updateStatements H chainSettings) s

/-- The method `ResponseCurveComponent::timerCallback`. -/
def timerCallback (H : Helpers P A S F C CC) (s : ResponseCurveComponent P C) :
    ResponseCurveComponent P C :=
  let r := testAndClear s
  if r.2 then timerUpdate H r.1 else r.1

/-- The calls of one update, in source order. -/
def updateCalls : List Call :=
  [Call.getChainSettings, Call.makePeakFilter, Call.updateCoefficients,
    Call.makeLowCutFilter, Call.makeHighCutFilter, Call.updateCutFilterLowCut,
    Call.updateCutFilterHighCut, Call.repaint]

/-- A burst of calls to `parameterValueChanged`, one per pair of arguments. -/
def burst (args : List (Int × F)) (s : ResponseCurveComponent P C) :
    ResponseCurveComponent P C :=
  args.foldl (fun t a => parameterValueChanged a.1 a.2 t) s

/-- An update during which `event` happens after the first `j` statements. -/
def timerUpdateInterleaved (H : Helpers P A S F C CC) (j : Nat)
    (event : ResponseCurveComponent P C → ResponseCurveComponent P C)
    (s : ResponseCurveComponent P C) : ResponseCurveComponent P C :=
  let chainSettings := H.getChainSettings (H.apvts s.audioProcessor)
  let stmts := updateStatements H chainSettings
  runStatements (stmts.drop j) (event (runStatements (stmts.take j) s))

/-- A `timerCallback` during which `event` happens after the test-and-clear:
after the first `j` statements of the update when the update runs, right after
the test otherwise. -/
def timerCallbackInterleaved (H : Helpers P A S F C CC) (j : Nat)
    (event : ResponseCurveComponent P C → ResponseCurveComponent P C)
    (s : ResponseCurveComponent P C) : ResponseCurveComponent P C :=
  let r := testAndClear s
  if r.2 then timerUpdateInterleaved H j event r.1 else event r.1

end Component

/-! ### The whole of paint -/

/-- A colour of `juce::Colours` that `paint` uses. -/
inductive Colour where
  | black
  | grey
  | white
deriving DecidableEq, Repr

/-- A call on the `juce::Graphics` context. -/
inductive DrawCall (F : Type) where
  | fillAll (colour : Colour)
  | setColour (colour : Colour)
  | drawRoundedRectangle (area : Rectangle) (cornerSize lineThickness : F)
  | strokePath (path : List (PathElement F)) (strokeThickness : F)
deriving DecidableEq, Repr

section PaintWhole

variable {P A S F C CC : Type} [LinearOrderedField F]

/-- The method `Component::getLocalBounds`: the rectangle at the origin with the
size of the component. -/
def getLocalBounds (s : ResponseCurveComponent P C) : Rectangle :=
  { x := 0, y := 0, w := s.width, h := s.height }

/-- The magnitude sequence `mags` of `paint` for a component: the chain is the
member `monoChain`, the sample rate comes from the processor, the width from
the bounds of the component. -/
def paintMagsOf (H : Helpers P A S F C CC) (J : JuceMath F C)
    (s : ResponseCurveComponent P C) : List F :=
  paintMags J s.monoChain (H.getSampleRate s.audioProcessor) (getLocalBounds s).getWidth

/-- The method `ResponseCurveComponent::paint`: the calls it makes on the
graphics context `g`, or `none` when a read of `mags` has no element to
return.  It assigns no member of the component. -/
def paint (H : Helpers P A S F C CC) (J : JuceMath F C)
    (s : ResponseCurveComponent P C) (g : List (DrawCall F)) : Option (List (DrawCall F)) :=
  let g := g ++ [DrawCall.fillAll Colour.black]
  let responseCurveArea := getLocalBounds s
  let mags := paintMagsOf H J s
  match paintPath mags responseCurveArea with
  | none => none
  | some responseCurve =>
    some (g ++ [DrawCall.setColour Colour.grey,
      DrawCall.drawRoundedRectangle responseCurveArea 4 4,
      DrawCall.setColour Colour.white,
      DrawCall.strokePath responseCurve 2])

end PaintWhole

/-! ## Listener registration -/

/-- The listener arrays of the parameters: a parameter (its address) is mapped
to the listeners (their addresses) registered on it. -/
abbrev ListenerStore := Nat → List Nat

/-- Modelled from the spec: `juce::AudioProcessorParameter::addListener` is a
library routine that is not part of `PluginEditor.cpp`.  It registers the
listener on the parameter, once: a listener that is already registered is not
added again. -/
def addListener (st : ListenerStore) (param listener : Nat) : ListenerStore :=
  Function.update st param
    (if listener ∈ st param then st param else st param ++ [listener])

/-- Modelled from the spec: `juce::AudioProcessorParameter::removeListener` is a
library routine that is not part of `PluginEditor.cpp`.  It unregisters the
listener from the parameter (the first matching entry is removed). -/
def removeListener (st : ListenerStore) (param listener : Nat) : ListenerStore :=
  Function.update st param ((st param).erase listener)

/-- What the constructor of `ResponseCurveComponent` leaves behind: the listener
arrays and the frequency of the timer it started. -/
structure Constructed where
  listeners : ListenerStore
  timerHz : Nat

/-- The constructor `ResponseCurveComponent::ResponseCurveComponent`, with
`this` the address of the component and `params` the result of
`audioProcessor.getParameters ()`: `addListener (this)` on every parameter, then
`startTimerHz (60)`. -/
def construct (this : Nat) (params : List Nat) (st : ListenerStore) : Constructed :=
  { listeners := params.foldl (fun t param => addListener t param this) st
    timerHz := 60 }

/-- The destructor `ResponseCurveComponent::~ResponseCurveComponent`:
`removeListener (this)` on every parameter. -/
def destroy (this : Nat) (params : List Nat) (st : ListenerStore) : ListenerStore :=
  params.foldl (fun t param => removeListener t param this) st

/-! ## The coefficient objects behind the pointers

The member `coefficients` of a filter is a `Coefficients::Ptr`: `paint` reads
through it (`coefficients->getMagnitudeForFrequency`) and `timerCallback` hands
it to `updateCoefficients` and, inside a cut filter, to `updateCutFilter`.
Here a pointer is an address, the heap maps an address to the coefficients
stored there, and the chain of the component and the chains of the processor
are chains of addresses. -/

/-- The addresses of the coefficient objects of a cut filter. -/
def cutAddresses (cut : CutFilter Nat) : List Nat :=
  [cut.get0.coefficients, cut.get1.coefficients, cut.get2.coefficients,
    cut.get3.coefficients]

/-- The addresses of the coefficient objects of a chain. -/
def chainAddresses (chain : MonoChain Nat) : List Nat :=
  chain.peak.coefficients :: (cutAddresses chain.lowCut ++ cutAddresses chain.highCut)

section OnHeap

variable {P A S F K CC : Type}

end OnHeap

/-! ## A small exact instance -/

/-- An instance of the math routines over the rationals, for evaluating the
definitions on concrete inputs: the integer logarithm, the integer power, and
coefficients that are one flat gain. -/
def ratMath : JuceMath ℚ ℚ where
  log10 := fun x => ((Nat.log 10 ⌊x⌋₊ : Nat) : ℚ)
  pow := fun b e => b ^ ⌊e⌋₊
  getMagnitudeForFrequency := fun c _ _ => c

/-- A chain whose peak has gain `20`, whose first low-cut stage has gain `5`,
and whose other stages are bypassed. -/
def sampleChain : MonoChain ℚ where
  lowCut := ⟨⟨5⟩, ⟨9⟩, ⟨9⟩, ⟨9⟩, false, true, true, true⟩
  peak := ⟨20⟩
  highCut := ⟨⟨7⟩, ⟨7⟩, ⟨7⟩, ⟨7⟩, true, true, true, true⟩
  isBypassedLowCut := false
  isBypassedPeak := false
  isBypassedHighCut := false

/-- The sample chain with other coefficients in its bypassed stages. -/
def otherChain : MonoChain ℚ where
  lowCut := ⟨⟨5⟩, ⟨1⟩, ⟨2⟩, ⟨3⟩, false, true, true, true⟩
  peak := ⟨20⟩
  highCut := ⟨⟨0⟩, ⟨4⟩, ⟨6⟩, ⟨8⟩, true, true, true, true⟩
  isBypassedLowCut := false
  isBypassedPeak := false
  isBypassedHighCut := false

/-- The sample chain with a first low-cut stage of gain `0`. -/
def zeroChain : MonoChain ℚ where
  lowCut := ⟨⟨0⟩, ⟨9⟩, ⟨9⟩, ⟨9⟩, false, true, true, true⟩
  peak := ⟨20⟩
  highCut := ⟨⟨7⟩, ⟨7⟩, ⟨7⟩, ⟨7⟩, true, true, true, true⟩
  isBypassedLowCut := false
  isBypassedPeak := false
  isBypassedHighCut := false

/-- A chain with every stage bypassed. -/
def bypassedChain : MonoChain ℚ where
  lowCut := ⟨⟨5⟩, ⟨9⟩, ⟨9⟩, ⟨9⟩, true, true, true, true⟩
  peak := ⟨20⟩
  highCut := ⟨⟨7⟩, ⟨7⟩, ⟨7⟩, ⟨7⟩, true, true, true, true⟩
  isBypassedLowCut := false
  isBypassedPeak := true
  isBypassedHighCut := false

/-- Helpers over a processor whose state is its sample rate: the settings are
the sample rate, a filter design returns it, an update of the peak adds the new
coefficients to the old ones, and an update of a cut filter stores the new
coefficients in every stage and bypasses none. -/
def sampleHelpers : Helpers ℚ ℚ ℚ ℚ ℚ ℚ where
  apvts := fun p => p
  getSampleRate := fun p => p
  getChainSettings := fun a => a
  lowCutSlope := fun _ => 0
  highCutSlope := fun _ => 0
  makePeakFilter := fun s _ => s
  makeLowCutFilter := fun s _ => s
  makeHighCutFilter := fun s _ => s
  updateCoefficients := fun old c => old + c
  updateCutFilter := fun _ c _ => ⟨⟨c⟩, ⟨c⟩, ⟨c⟩, ⟨c⟩, false, false, false, false⟩

/-- A component of width `3` with the sample chain and the flag clear. -/
def sampleComponent : ResponseCurveComponent ℚ ℚ where
  audioProcessor := 48000
  monoChain := sampleChain
  parametersChanged := false
  width := 3
  height := 2
  calls := []


/-- The sample component with the flag set. -/
def changedComponent : ResponseCurveComponent ℚ ℚ where
  audioProcessor := 48000
  monoChain := sampleChain
  parametersChanged := true
  width := 3
  height := 2
  calls := []

section PaintLemmas

variable {F C : Type} [LinearOrderedField F]

/-- A loop that writes `f i` at index `i` for `i = 0 .. n - 1` into a list of
length at least `n` leaves `f 0 .. f (n - 1)` followed by the untouched tail. -/
theorem foldl_set_range {α : Type} (f : Nat → α) (n : Nat) (l : List α)
    (h : n ≤ l.length) :
    (List.range n).foldl (fun m i => m.set i (f i)) l
      = (List.range n).map f ++ l.drop n := by
  induction n with
  | zero => simp
  | succ k ih =>
    have hk : k < l.length := h
    rw [List.range_succ, List.foldl_append, ih (Nat.le_of_lt hk)]
    simp only [List.foldl_cons, List.foldl_nil, List.map_append, List.map_cons, List.map_nil]
    have hlen : ((List.range k).map f).length = k := by simp
    rw [List.set_append_right _ _ (by simp), hlen, Nat.sub_self]
    rw [List.drop_eq_getElem_cons hk, List.set_cons_zero]
    simp

/-- The magnitude loop of `paint` computes entry `i` for every position. -/
theorem paintMags_eq_map (J : JuceMath F C) (monoChain : MonoChain C) (sampleRate : F)
    (w : Nat) :
    paintMags J monoChain sampleRate w
      = (List.range w).map (paintEntry J monoChain sampleRate w) := by
  unfold paintMags
  rw [foldl_set_range _ w _ (by simp)]
  simp

/-- Folding over the stages that pass a filter is folding over all of them with
the step guarded by the filter. -/
theorem foldl_active {α : Type} (g : α → C → α) (l : List (Bool × C)) (a : α) :
    ((l.filter (fun s => !s.1)).map (fun s => s.2)).foldl g a
      = l.foldl (fun acc s => if !s.1 then g acc s.2 else acc) a := by
  induction l generalizing a with
  | nil => rfl
  | cons s t ih =>
    rcases s with ⟨b, c⟩
    cases b <;> simp [List.filter_cons, ih]

/-- The nine guarded statements of the loop body compute the product over the
stages that are not bypassed. -/
theorem paintMag_eq_stageProduct (J : JuceMath F C) (monoChain : MonoChain C)
    (sampleRate freq : F) :
    paintMag J monoChain sampleRate freq = stageProduct J monoChain sampleRate freq := by
  unfold stageProduct activeCoefficients
  rw [foldl_active]
  rfl

/-- Chains that agree stage by stage have the same active coefficients. -/
theorem activeCoefficients_congr_aux (l l' : List (Bool × C))
    (h : List.Forall₂ StageAgree l l') :
    (l.filter (fun s => !s.1)).map (fun s => s.2)
      = (l'.filter (fun s => !s.1)).map (fun s => s.2) := by
  induction h with
  | nil => rfl
  | @cons a b _ _ hab _ ih =>
    rcases a with ⟨a1, a2⟩
    rcases b with ⟨b1, b2⟩
    obtain ⟨h1, h2⟩ := hab
    change a1 = b1 at h1
    change a1 = false → a2 = b2 at h2
    subst h1
    cases a1
    · simp [List.filter_cons, ih, h2 rfl]
    · simp [List.filter_cons, ih]

/-- The guarded fold is the product in which a bypassed stage is the factor `1`. -/
theorem foldl_guarded_eq_prod (g : C → F) (l : List (Bool × C)) (a : F) :
    l.foldl (fun acc s => if !s.1 then acc * g s.2 else acc) a
      = a * (l.map (fun s => if s.1 then 1 else g s.2)).prod := by
  induction l generalizing a with
  | nil => simp
  | cons s t ih =>
    rcases s with ⟨b, c⟩
    cases b
    · rw [List.foldl_cons, List.map_cons, List.prod_cons, ih]
      simp [mul_assoc]
    · rw [List.foldl_cons, List.map_cons, List.prod_cons, ih]
      simp

/-- The product over the active stages is the product over all nine stages in
which a bypassed stage is the factor `1`. -/
theorem stageProduct_eq_prod (J : JuceMath F C) (monoChain : MonoChain C)
    (sampleRate freq : F) :
    stageProduct J monoChain sampleRate freq
      = ((stages monoChain).map
          (fun s => if s.1 then 1 else J.getMagnitudeForFrequency s.2 freq sampleRate)).prod := by
  unfold stageProduct activeCoefficients
  rw [foldl_active, foldl_guarded_eq_prod (fun c => J.getMagnitudeForFrequency c freq sampleRate)]
  simp

/-- The function `jmax` is the maximum. -/
theorem jmax_eq_max (a b : F) : jmax a b = max a b := by
  unfold jmax
  split_ifs with h
  · exact (max_eq_right (le_of_lt h)).symm
  · exact (max_eq_left (not_lt.mp h)).symm

/-- The result of `gainToDecibels` is never below the floor. -/
theorem floor_le_gainToDecibels (J : JuceMath F C) (gain floor : F) :
    floor ≤ gainToDecibels J gain floor := by
  unfold gainToDecibels
  split_ifs
  · rw [jmax_eq_max]; exact le_max_left _ _
  · exact le_refl _

/-- Entry `i` of the magnitude sequence, for a position inside the width. -/
theorem paintMags_getElem? (J : JuceMath F C) (monoChain : MonoChain C) (sampleRate : F)
    (w i : Nat) (hi : i < w) :
    (paintMags J monoChain sampleRate w)[i]? = some (paintEntry J monoChain sampleRate w i) := by
  rw [paintMags_eq_map]
  simp [List.getElem?_map, List.getElem?_range hi]

/-- The magnitude sequence has as many entries as the component is wide. -/
theorem paintMags_length (J : JuceMath F C) (monoChain : MonoChain C) (sampleRate : F)
    (w : Nat) : (paintMags J monoChain sampleRate w).length = w := by
  rw [paintMags_eq_map]
  simp

end PaintLemmas

/-! ## The claims on paint -/

section PaintClaims

variable {F C : Type} [LinearOrderedField F]

/-- C1: for every width `w ≥ 1`, every sample rate and every chain, the
magnitude sequence of `paint` has exactly `w` entries, and entry `i` (for
`i < w`) is `gainToDecibels` of the product, starting from `1`, of
`getMagnitudeForFrequency (freq_i, sampleRate)` over exactly the stages that
are not bypassed among peak, low cut 0..3 and high cut 0..3; a bypassed stage
is the factor `1`, and its coefficients are not read: a chain `other` that
differs only in the coefficients of bypassed stages gives the same sequence. -/
theorem paint_mags_product (J : JuceMath F C) (monoChain other : MonoChain C)
    (sampleRate : F) (w i : Nat) (hw : 1 ≤ w) (hi : i < w)
    (hagree : List.Forall₂ StageAgree (stages monoChain) (stages other)) :
    (paintMags J monoChain sampleRate w).length = w
    ∧ (paintMags J monoChain sampleRate w)[i]?
        = some (gainToDecibels J (stageProduct J monoChain sampleRate (paintFreq J w i))
            defaultMinusInfinitydB)
    ∧ stageProduct J monoChain sampleRate (paintFreq J w i)
        = ((stages monoChain).map (fun s =>
            if s.1 then 1
            else J.getMagnitudeForFrequency s.2 (paintFreq J w i) sampleRate)).prod
    ∧ paintMags J other sampleRate w = paintMags J monoChain sampleRate w := by
  have _ := hw
  refine ⟨paintMags_length J monoChain sampleRate w, ?_, stageProduct_eq_prod _ _ _ _, ?_⟩
  · rw [paintMags_getElem? J monoChain sampleRate w i hi]
    unfold paintEntry
    rw [paintMag_eq_stageProduct]
  · have hact : activeCoefficients other = activeCoefficients monoChain :=
      (activeCoefficients_congr_aux _ _ hagree).symm
    rw [paintMags_eq_map, paintMags_eq_map]
    apply List.map_congr_left
    intro k _
    unfold paintEntry
    rw [paintMag_eq_stageProduct, paintMag_eq_stageProduct]
    unfold stageProduct
    rw [hact]

/-- C2: when the peak stage, the four low-cut stages and the four high-cut
stages are all bypassed, then for every width `w`, every sample rate and
whatever coefficients the stages hold, each of the `w` values of `paint` is
exactly `0` dB (`log10 (1) = 0` is the one fact used of `std::log10`). -/
theorem paint_all_bypassed_zero (J : JuceMath F C) (monoChain : MonoChain C)
    (sampleRate : F) (w : Nat) (hw : 1 ≤ w) (hlog : J.log10 1 = 0)
    (hall : ∀ s ∈ stages monoChain, s.1 = true) :
    paintMags J monoChain sampleRate w = List.replicate w 0
    ∧ ∀ i, i < w → (paintMags J monoChain sampleRate w)[i]? = some 0 := by
  have _ := hw
  have hone : ∀ freq, paintMag J monoChain sampleRate freq = 1 := by
    intro freq
    simp only [stages, List.mem_cons, List.mem_singleton, forall_eq_or_imp, forall_eq,
      List.not_mem_nil, false_implies, implies_true, and_true] at hall
    obtain ⟨h0, h1, h2, h3, h4, h5, h6, h7, h8⟩ := hall
    simp [paintMag, h0, h1, h2, h3, h4, h5, h6, h7, h8]
  have hentry : ∀ i, paintEntry J monoChain sampleRate w i = 0 := by
    intro i
    unfold paintEntry
    rw [hone]
    simp [gainToDecibels, jmax, hlog, defaultMinusInfinitydB]
  have hmags : paintMags J monoChain sampleRate w = List.replicate w 0 := by
    rw [paintMags_eq_map]
    apply List.ext_getElem
    · simp
    · intro n h1 h2
      simp [hentry]
  refine ⟨hmags, ?_⟩
  intro i hi
  rw [paintMags_getElem? J monoChain sampleRate w i hi, hentry]

/-- C7: at every position the product `P` is converted to decibels with a
floor: the stored value is `max (floor, 20 * log10 (P))` for `P > 0` and the
floor itself otherwise, in particular for `P = 0`, the floor being the default
`-100` dB; so no entry is below the floor, and an entry is the floor when some
stage that is not bypassed has zero magnitude at that frequency. -/
theorem paint_entry_floor (J : JuceMath F C) (monoChain : MonoChain C)
    (sampleRate : F) (w i : Nat) (hi : i < w) :
    (paintMags J monoChain sampleRate w)[i]? = some (paintEntry J monoChain sampleRate w i)
    ∧ paintEntry J monoChain sampleRate w i
        = (if 0 < paintMag J monoChain sampleRate (paintFreq J w i)
            then max (-100) (20 * J.log10 (paintMag J monoChain sampleRate (paintFreq J w i)))
            else -100)
    ∧ (paintMag J monoChain sampleRate (paintFreq J w i) = 0 →
        paintEntry J monoChain sampleRate w i = -100)
    ∧ (-100 : F) ≤ paintEntry J monoChain sampleRate w i
    ∧ ((∃ c ∈ activeCoefficients monoChain,
          J.getMagnitudeForFrequency c (paintFreq J w i) sampleRate = 0) →
        paintMag J monoChain sampleRate (paintFreq J w i) = 0
        ∧ paintEntry J monoChain sampleRate w i = -100) := by
  have hzero : paintMag J monoChain sampleRate (paintFreq J w i) = 0 →
      paintEntry J monoChain sampleRate w i = -100 := by
    intro h0
    simp [paintEntry, gainToDecibels, h0, defaultMinusInfinitydB]
  refine ⟨paintMags_getElem? J monoChain sampleRate w i hi, ?_, hzero, ?_, ?_⟩
  · simp only [paintEntry, gainToDecibels, defaultMinusInfinitydB, jmax_eq_max, gt_iff_lt,
      mul_comm (20 : F)]
  · have := floor_le_gainToDecibels J (paintMag J monoChain sampleRate (paintFreq J w i))
      (defaultMinusInfinitydB : F)
    simpa [paintEntry, defaultMinusInfinitydB] using this
  · rintro ⟨c, hc, hc0⟩
    have hP : paintMag J monoChain sampleRate (paintFreq J w i) = 0 := by
      rw [paintMag_eq_stageProduct]
      unfold stageProduct
      rw [← List.foldl_map (fun c => J.getMagnitudeForFrequency c (paintFreq J w i) sampleRate)
        (fun acc x => acc * x) (activeCoefficients monoChain) 1]
      have hprod : ∀ (l : List F) (a : F), l.foldl (fun acc x => acc * x) a = a * l.prod := by
        intro l
        induction l with
        | nil => intro a; simp
        | cons x t ih => intro a; simp [ih, mul_assoc]
      rw [hprod, one_mul]
      exact List.prod_eq_zero (List.mem_map.mpr ⟨c, hc, hc0⟩)
    exact ⟨hP, hzero hP⟩

/-- The stand-in logarithm of the exact instance at `1`. -/
theorem ratMath_log10_one : ratMath.log10 1 = 0 := by
  simp [ratMath]

/-- The stand-in logarithm of the exact instance at `100`. -/
theorem ratMath_log10_hundred : ratMath.log10 100 = 2 := by
  have h : Nat.log 10 100 = 2 := by simp [Nat.log]
  have hf : ⌊(100 : ℚ)⌋₊ = 100 := Nat.floor_ofNat 100
  simp [ratMath, hf, h]

/-- The product of the sample chain is `20 * 5` at every frequency. -/
theorem sampleChain_product (sampleRate freq : ℚ) :
    stageProduct ratMath sampleChain sampleRate freq = 100 := by
  norm_num [stageProduct, activeCoefficients, stages, sampleChain, ratMath]

/-- The sample chain has a gain of `40` dB in the exact instance. -/
theorem sampleChain_decibels :
    gainToDecibels ratMath (100 : ℚ) defaultMinusInfinitydB = 40 := by
  have h := ratMath_log10_hundred
  norm_num [gainToDecibels, jmax, defaultMinusInfinitydB, h]

/-- Witness of C1: the sample chain at width `3`, position `1`, against the
chain that differs in the coefficients of the bypassed stages. -/
theorem paint_mags_product_witness :
    (1 ≤ 3 ∧ 1 < 3 ∧ List.Forall₂ StageAgree (stages sampleChain) (stages otherChain))
    ∧ (paintMags ratMath sampleChain 48000 3).length = 3
    ∧ (paintMags ratMath sampleChain 48000 3)[1]? = some 40
    ∧ paintMags ratMath otherChain 48000 3 = paintMags ratMath sampleChain 48000 3 :=
  have hagree : List.Forall₂ StageAgree (stages sampleChain) (stages otherChain) := by
    simp [stages, StageAgree, sampleChain, otherChain]
  have h := paint_mags_product ratMath sampleChain otherChain 48000 3 1 (by decide)
    (by decide) hagree
  ⟨⟨by decide, by decide, hagree⟩, h.1,
    h.2.1.trans (by rw [sampleChain_product, sampleChain_decibels]), h.2.2.2⟩

/-- Witness of C2: the chain with every stage bypassed, at width `3`. -/
theorem paint_all_bypassed_zero_witness :
    (1 ≤ 3 ∧ ratMath.log10 1 = 0 ∧ ∀ s ∈ stages bypassedChain, s.1 = true)
    ∧ paintMags ratMath bypassedChain 48000 3 = [0, 0, 0] :=
  have hall : ∀ s ∈ stages bypassedChain, s.1 = true := by
    simp [stages, bypassedChain]
  ⟨⟨by decide, ratMath_log10_one, hall⟩,
    (paint_all_bypassed_zero ratMath bypassedChain 48000 3 (by decide)
      ratMath_log10_one hall).1⟩

/-- Witness of C7: in the chain whose first low-cut stage has gain `0`, entry
`1` of width `3` is the floor of `-100` dB. -/
theorem paint_entry_floor_witness :
    1 < 3
    ∧ (∃ c ∈ activeCoefficients zeroChain,
        ratMath.getMagnitudeForFrequency c (paintFreq ratMath 3 1) 48000 = 0)
    ∧ (paintMags ratMath zeroChain 48000 3)[1]? = some (-100 : ℚ) :=
  have hz : ∃ c ∈ activeCoefficients zeroChain,
      ratMath.getMagnitudeForFrequency c (paintFreq ratMath 3 1) 48000 = 0 :=
    ⟨0, by simp [activeCoefficients, stages, zeroChain], rfl⟩
  have h := paint_entry_floor ratMath zeroChain 48000 3 1 (by decide)
  ⟨by decide, hz, h.1.trans (congrArg some (h.2.2.2.2 hz).2)⟩

end PaintClaims

/-! ## The reads of the path loop -/

/-- The path loop succeeds when every index it visits is inside the vector. -/
theorem pathLoop_isSome {F : Type} (mags : List F) (step : F → Nat → PathElement F)
    (idx : List Nat) (h : ∀ i ∈ idx, i < mags.length) (acc : List (PathElement F)) :
    (idx.foldlM
      (fun responseCurve (i : Nat) =>
        match mags[i]? with
        | none => none
        | some m => some (responseCurve ++ [step m i])) acc).isSome = true := by
  induction idx generalizing acc with
  | nil => rfl
  | cons i t ih =>
    have hi : i < mags.length := h i (List.mem_cons_self i t)
    rw [List.foldlM_cons, List.getElem?_eq_getElem hi]
    exact ih (fun j hj => h j (List.mem_cons_of_mem i hj)) _

section PathClaims

variable {P A S F C CC : Type} [LinearOrderedField F]

/-- Every index of the path loop is inside the vector. -/
theorem pathLoopIndices_lt (size i : Nat) (h : i ∈ pathLoopIndices size) : i < size := by
  unfold pathLoopIndices at h
  rw [List.mem_range'_1] at h
  omega

/-- The second half of `paint` succeeds exactly on a vector that is not empty. -/
theorem paintPath_isSome_iff (mags : List F) (area : Rectangle) :
    (paintPath mags area).isSome = true ↔ mags ≠ [] := by
  cases mags with
  | nil => simp [paintPath]
  | cons m t =>
    simp only [paintPath, List.head?_cons, ne_eq, reduceCtorEq, not_false_eq_true, iff_true]
    exact pathLoop_isSome (m :: t) _ _ (fun i hi => pathLoopIndices_lt _ i hi) _

/-- C10: `paint` reads `mags.front ()` unconditionally after sizing `mags` to the
width of the component, so for every width `w ≥ 0` all reads of `mags` (the
front element and the indices `1 .. size - 1` of the path loop) are in range if
and only if `w ≥ 1`: `paint` has a result exactly then; with `w = 0` the vector
is empty, the magnitude loop and the path loop run zero times, and the front
read has no element to return. -/
theorem paint_reads_in_range_iff (H : Helpers P A S F C CC) (J : JuceMath F C)
    (s : ResponseCurveComponent P C) (g : List (DrawCall F)) :
    (paintMagsOf H J s).length = s.width
    ∧ ((∀ r ∈ magsReads (paintMagsOf H J s).length, r < (paintMagsOf H J s).length)
        ↔ 1 ≤ s.width)
    ∧ ((paint H J s g).isSome = true ↔ 1 ≤ s.width)
    ∧ paintMagsOf H J { s with width := 0 } = []
    ∧ List.range (getLocalBounds { s with width := 0 }).getWidth = []
    ∧ pathLoopIndices (paintMagsOf H J { s with width := 0 }).length = []
    ∧ (paintMagsOf H J { s with width := 0 }).head? = none
    ∧ paint H J { s with width := 0 } g = none := by
  have hlen : ∀ t : ResponseCurveComponent P C, (paintMagsOf H J t).length = t.width := by
    intro t
    simp [paintMagsOf, paintMags_length, getLocalBounds, Rectangle.getWidth]
  have hnil : paintMagsOf H J { s with width := 0 } = [] :=
    List.eq_nil_of_length_eq_zero (hlen _)
  refine ⟨hlen s, ?_, ?_, hnil, rfl, ?_, ?_, ?_⟩
  · rw [hlen s]
    constructor
    · intro h
      have := h 0 (List.mem_cons_self 0 _)
      omega
    · intro hw r hr
      rcases List.mem_cons.mp hr with h0 | ht
      · omega
      · exact pathLoopIndices_lt _ r ht
  · have hne : paintMagsOf H J s ≠ [] ↔ 1 ≤ s.width := by
      rw [← hlen s, Nat.one_le_iff_ne_zero, ne_eq, ne_eq, List.length_eq_zero]
    rw [← hne, ← paintPath_isSome_iff (paintMagsOf H J s) (getLocalBounds s)]
    unfold paint
    dsimp only
    split <;> simp [*]
  · rw [hnil]; rfl
  · rw [hnil]; rfl
  · unfold paint
    simp only [hnil, paintPath, List.head?_nil]

/-- Witness of C10: the sample component of width `3` is painted, the same
component with width `0` is not. -/
theorem paint_reads_in_range_iff_witness :
    (paint sampleHelpers ratMath sampleComponent []).isSome = true
    ∧ paint sampleHelpers ratMath { sampleComponent with width := 0 } [] = none :=
  have h := paint_reads_in_range_iff sampleHelpers ratMath sampleComponent []
  ⟨h.2.2.1.mpr (by decide), h.2.2.2.2.2.2.2⟩

end PathClaims

/-! ## The frequencies of the positions in exact arithmetic

Here `double` is replaced by the real numbers, `std::log10` by the logarithm to
base ten and `std::pow` by the real power.  The lemmas describe the ideal curve
`20 * 1000 ^ (i / w)`; the doubles that `paint` computes are rounded, so they
follow this curve only up to rounding. -/

section FrequencyLemmas

variable {C : Type}

/-- The range of `paint` spans three decades. -/
theorem logb_range : Real.logb 10 20000 - Real.logb 10 20 = Real.logb 10 1000 := by
  rw [← Real.logb_div (by norm_num) (by norm_num)]
  norm_num

/-- Over the reals `mapToLog10 (t, 20, 20000)` is `20 * 1000 ^ t`. -/
theorem mapToLog10_real (g : C → ℝ → ℝ → ℝ) (t : ℝ) :
    mapToLog10 (JuceMath.mk (fun x => Real.logb 10 x) (fun b e => b ^ e) g) t 20 20000
      = 20 * (1000 : ℝ) ^ t := by
  simp only [mapToLog10]
  rw [logb_range, Real.rpow_add (by norm_num : (0 : ℝ) < 10), mul_comm t,
    Real.rpow_mul (by norm_num : (0 : ℝ) ≤ 10),
    Real.rpow_logb (by norm_num) (by norm_num) (by norm_num),
    Real.rpow_logb (by norm_num) (by norm_num) (by norm_num)]
  ring

/-- The frequency of position `i` over the reals. -/
theorem paintFreq_real (g : C → ℝ → ℝ → ℝ) (w i : Nat) :
    paintFreq (JuceMath.mk (fun x => Real.logb 10 x) (fun b e => b ^ e) g) w i
      = 20 * (1000 : ℝ) ^ ((i : ℝ) / (w : ℝ)) := by
  unfold paintFreq
  exact mapToLog10_real g _

/-- In exact real arithmetic, for every width `w ≥ 1` and every position
`i < w`, the frequency of position `i` is `20 * (20000 / 20) ^ (i / w)`:
position `0` is at `20`, the frequency strictly increases with the position,
neighbouring positions have the ratio `1000 ^ (1 / w)`, and every frequency
lies between `20` and `20000`. -/
theorem paintFreq_real_log_uniform (g : C → ℝ → ℝ → ℝ) (w i : Nat) (hw : 1 ≤ w) (hi : i < w) :
    paintFreq (JuceMath.mk (fun x => Real.logb 10 x) (fun b e => b ^ e) g) w i
        = 20 * (20000 / 20 : ℝ) ^ ((i : ℝ) / (w : ℝ))
    ∧ paintFreq (JuceMath.mk (fun x => Real.logb 10 x) (fun b e => b ^ e) g) w 0 = 20
    ∧ StrictMono (paintFreq (JuceMath.mk (fun x => Real.logb 10 x) (fun b e => b ^ e) g) w)
    ∧ paintFreq (JuceMath.mk (fun x => Real.logb 10 x) (fun b e => b ^ e) g) w (i + 1)
        = paintFreq (JuceMath.mk (fun x => Real.logb 10 x) (fun b e => b ^ e) g) w i
            * (1000 : ℝ) ^ ((1 : ℝ) / (w : ℝ))
    ∧ 20 ≤ paintFreq (JuceMath.mk (fun x => Real.logb 10 x) (fun b e => b ^ e) g) w i
    ∧ paintFreq (JuceMath.mk (fun x => Real.logb 10 x) (fun b e => b ^ e) g) w i ≤ 20000 := by
  have hwpos : (0 : ℝ) < (w : ℝ) := by exact_mod_cast hw
  have hiw : (i : ℝ) / (w : ℝ) ≤ 1 := by
    rw [div_le_one hwpos]
    exact_mod_cast Nat.le_of_lt hi
  have hi0 : (0 : ℝ) ≤ (i : ℝ) / (w : ℝ) := div_nonneg (Nat.cast_nonneg i) (le_of_lt hwpos)
  refine ⟨?_, ?_, ?_, ?_, ?_, ?_⟩
  · rw [paintFreq_real]
    norm_num
  · rw [paintFreq_real]
    simp
  · intro a b hab
    rw [paintFreq_real, paintFreq_real]
    have hlt : (a : ℝ) / (w : ℝ) < (b : ℝ) / (w : ℝ) :=
      div_lt_div_of_pos_right (by exact_mod_cast hab) hwpos
    have := (Real.rpow_lt_rpow_left_iff (by norm_num : (1 : ℝ) < 1000)).mpr hlt
    linarith
  · rw [paintFreq_real, paintFreq_real, mul_assoc,
      ← Real.rpow_add (by norm_num : (0 : ℝ) < 1000)]
    congr 2
    push_cast
    ring
  · rw [paintFreq_real]
    have := Real.one_le_rpow (by norm_num : (1 : ℝ) ≤ 1000) hi0
    linarith
  · rw [paintFreq_real]
    have h := Real.rpow_le_rpow_of_exponent_le (by norm_num : (1 : ℝ) ≤ 1000) hiw
    rw [Real.rpow_one] at h
    linarith

end FrequencyLemmas

/-! ## The dirty-flag handshake -/

section TimerLemmas

variable {P A S F C CC : Type}

/-- A callback on a clear flag changes nothing. -/
theorem timerCallback_of_clear (H : Helpers P A S F C CC) (s : ResponseCurveComponent P C)
    (h : s.parametersChanged = false) : timerCallback H s = s := by
  cases s with
  | mk ap mc pc w ht cl =>
    simp only at h
    subst h
    rfl

/-- A callback on a set flag clears the flag and runs the update. -/
theorem timerCallback_of_set (H : Helpers P A S F C CC) (s : ResponseCurveComponent P C)
    (h : s.parametersChanged = true) :
    timerCallback H s = timerUpdate H { s with parametersChanged := false } := by
  cases s with
  | mk ap mc pc w ht cl =>
    simp only at h
    subst h
    rfl

/-- The update leaves the flag as it is. -/
theorem timerUpdate_parametersChanged (H : Helpers P A S F C CC)
    (s : ResponseCurveComponent P C) :
    (timerUpdate H s).parametersChanged = s.parametersChanged := rfl

/-- The update leaves the processor as it is. -/
theorem timerUpdate_audioProcessor (H : Helpers P A S F C CC)
    (s : ResponseCurveComponent P C) :
    (timerUpdate H s).audioProcessor = s.audioProcessor := rfl

/-- The update makes each of its calls once, in source order. -/
theorem timerUpdate_calls (H : Helpers P A S F C CC) (s : ResponseCurveComponent P C) :
    (timerUpdate H s).calls = s.calls ++ updateCalls := by
  simp [timerUpdate, runStatements, updateStatements, readChainSettings, updatePeak,
    updateLowCut, updateHighCut, requestRepaint, updateCalls]

/-- The chain after the update, written out: the peak holds what
`updateCoefficients` returns for the old coefficients and the result of
`makePeakFilter`, each cut filter is what `updateCutFilter` returns for the old
cut filter, the result of its `make...CutFilter` and its slope; the bypass
flags of the three positions stay. -/
theorem timerUpdate_monoChain (H : Helpers P A S F C CC) (s : ResponseCurveComponent P C) :
    (timerUpdate H s).monoChain
      = MonoChain.mk
          (H.updateCutFilter s.monoChain.lowCut
            (H.makeLowCutFilter (H.getChainSettings (H.apvts s.audioProcessor))
              (H.getSampleRate s.audioProcessor))
            (H.lowCutSlope (H.getChainSettings (H.apvts s.audioProcessor))))
          (Filter.mk (H.updateCoefficients s.monoChain.peak.coefficients
            (H.makePeakFilter (H.getChainSettings (H.apvts s.audioProcessor))
              (H.getSampleRate s.audioProcessor))))
          (H.updateCutFilter s.monoChain.highCut
            (H.makeHighCutFilter (H.getChainSettings (H.apvts s.audioProcessor))
              (H.getSampleRate s.audioProcessor))
            (H.highCutSlope (H.getChainSettings (H.apvts s.audioProcessor))))
          s.monoChain.isBypassedLowCut
          s.monoChain.isBypassedPeak
          s.monoChain.isBypassedHighCut := rfl

/-- A burst that is not empty sets the flag and changes nothing else. -/
theorem burst_eq (args : List (Int × F)) (s : ResponseCurveComponent P C)
    (h : args ≠ []) : burst args s = { s with parametersChanged := true } := by
  have key : ∀ (l : List (Int × F)) (t : ResponseCurveComponent P C),
      t.parametersChanged = true → burst l t = t := by
    intro l
    induction l with
    | nil => intro t _; rfl
    | cons a r ih =>
      intro t ht
      have hstep : parameterValueChanged a.1 a.2 t = t := by
        cases t with
        | mk ap mc pc w hgt cl =>
          simp only at ht
          subst ht
          rfl
      show burst r (parameterValueChanged a.1 a.2 t) = t
      rw [hstep]
      exact ih t ht
  cases args with
  | nil => exact absurd rfl h
  | cons a r =>
    show burst r (parameterValueChanged a.1 a.2 s) = _
    exact key r _ rfl

/-- Callbacks after the first one find the flag clear. -/
theorem iterate_timerCallback (H : Helpers P A S F C CC) (s : ResponseCurveComponent P C)
    (k : Nat) (h : (timerCallback H s).parametersChanged = false) :
    Nat.iterate (timerCallback H) (k + 1) s = timerCallback H s := by
  induction k with
  | zero => rfl
  | succ n ih =>
    rw [Function.iterate_succ_apply', ih]
    exact timerCallback_of_clear H _ h

/-- A callback always leaves the flag clear. -/
theorem timerCallback_parametersChanged (H : Helpers P A S F C CC)
    (s : ResponseCurveComponent P C) : (timerCallback H s).parametersChanged = false := by
  cases hs : s.parametersChanged with
  | false => rw [timerCallback_of_clear H s hs]; exact hs
  | true => rw [timerCallback_of_set H s hs]; rfl

/-- The statements of the update leave the flag as it is. -/
theorem runStatements_parametersChanged (H : Helpers P A S F C CC) (chainSettings : S)
    (stmts : List (ResponseCurveComponent P C → ResponseCurveComponent P C))
    (h : ∀ f ∈ stmts, f ∈ updateStatements H chainSettings)
    (s : ResponseCurveComponent P C) :
    (runStatements stmts s).parametersChanged = s.parametersChanged := by
  induction stmts generalizing s with
  | nil => rfl
  | cons f t ih =>
    show (runStatements t (f s)).parametersChanged = s.parametersChanged
    rw [ih (fun f1 hf1 => h f1 (List.mem_cons_of_mem f hf1))]
    have hf := h f (List.mem_cons_self f t)
    simp only [updateStatements, List.mem_cons, List.mem_singleton, List.not_mem_nil,
      or_false] at hf
    rcases hf with rfl | rfl | rfl | rfl | rfl <;> rfl

/-- Setting the flag commutes with the statements of the update. -/
theorem runStatements_setFlag (H : Helpers P A S F C CC) (chainSettings : S)
    (stmts : List (ResponseCurveComponent P C → ResponseCurveComponent P C))
    (h : ∀ f ∈ stmts, f ∈ updateStatements H chainSettings)
    (s : ResponseCurveComponent P C) :
    runStatements stmts { s with parametersChanged := true }
      = { runStatements stmts s with parametersChanged := true } := by
  induction stmts generalizing s with
  | nil => rfl
  | cons f t ih =>
    have hf := h f (List.mem_cons_self f t)
    have ht := ih (fun f1 hf1 => h f1 (List.mem_cons_of_mem f hf1))
    simp only [updateStatements, List.mem_cons, List.mem_singleton, List.not_mem_nil,
      or_false] at hf
    show runStatements t (f { s with parametersChanged := true }) = _
    have hcomm : f { s with parametersChanged := true }
        = { f s with parametersChanged := true } := by
      rcases hf with rfl | rfl | rfl | rfl | rfl <;> rfl
    rw [hcomm, ht (f s)]
    rfl

/-- An update during which the flag is set is the update followed by setting
the flag. -/
theorem timerUpdateInterleaved_setFlag (H : Helpers P A S F C CC) (j : Nat)
    (parameterIndex : Int) (newValue : F) (s : ResponseCurveComponent P C) :
    timerUpdateInterleaved H j (parameterValueChanged parameterIndex newValue) s
      = { timerUpdate H s with parametersChanged := true } := by
  unfold timerUpdateInterleaved timerUpdate
  dsimp only
  have hsplit : runStatements
      (updateStatements H (H.getChainSettings (H.apvts s.audioProcessor))) s
      = runStatements
        ((updateStatements H (H.getChainSettings (H.apvts s.audioProcessor))).drop j)
        (runStatements
          ((updateStatements H (H.getChainSettings (H.apvts s.audioProcessor))).take j) s) := by
    unfold runStatements
    rw [← List.foldl_append, List.take_append_drop]
  rw [hsplit]
  exact runStatements_setFlag H _ _ (fun f hf => List.mem_of_mem_drop hf) _

end TimerLemmas

section TimerClaims

variable {P A S F C CC : Type}

/-- C3: starting from any state, a burst of `n ≥ 1` calls to
`parameterValueChanged` (with any arguments) followed by `k ≥ 1` calls to
`timerCallback` performs exactly one update of `monoChain` and one repaint
request, in the first of the `k` callbacks: the first callback makes the calls
of one update, the `k` callbacks together make no more, the chain afterwards
is the old chain with the results of `makePeakFilter`, `makeLowCutFilter` and
`makeHighCutFilter` put in by `updateCoefficients` and `updateCutFilter`
exactly once, and the flag is false afterwards. -/
theorem burst_then_callbacks_update_once (H : Helpers P A S F C CC)
    (s : ResponseCurveComponent P C) (args : List (Int × F)) (k : Nat)
    (hn : 1 ≤ args.length) (hk : 1 ≤ k) :
    (timerCallback H (burst args s)).calls = s.calls ++ updateCalls
    ∧ Nat.iterate (timerCallback H) k (burst args s) = timerCallback H (burst args s)
    ∧ (Nat.iterate (timerCallback H) k (burst args s)).calls = s.calls ++ updateCalls
    ∧ (Nat.iterate (timerCallback H) k (burst args s)).calls.count Call.updateCoefficients
        = s.calls.count Call.updateCoefficients + 1
    ∧ (Nat.iterate (timerCallback H) k (burst args s)).calls.count Call.repaint
        = s.calls.count Call.repaint + 1
    ∧ (Nat.iterate (timerCallback H) k (burst args s)).monoChain
        = (timerUpdate H { s with parametersChanged := false }).monoChain
    ∧ (Nat.iterate (timerCallback H) k (burst args s)).monoChain
        = MonoChain.mk
            (H.updateCutFilter s.monoChain.lowCut
              (H.makeLowCutFilter (H.getChainSettings (H.apvts s.audioProcessor))
                (H.getSampleRate s.audioProcessor))
              (H.lowCutSlope (H.getChainSettings (H.apvts s.audioProcessor))))
            (Filter.mk (H.updateCoefficients s.monoChain.peak.coefficients
              (H.makePeakFilter (H.getChainSettings (H.apvts s.audioProcessor))
                (H.getSampleRate s.audioProcessor))))
            (H.updateCutFilter s.monoChain.highCut
              (H.makeHighCutFilter (H.getChainSettings (H.apvts s.audioProcessor))
                (H.getSampleRate s.audioProcessor))
              (H.highCutSlope (H.getChainSettings (H.apvts s.audioProcessor))))
            s.monoChain.isBypassedLowCut
            s.monoChain.isBypassedPeak
            s.monoChain.isBypassedHighCut
    ∧ (Nat.iterate (timerCallback H) k (burst args s)).parametersChanged = false := by
  have hne : args ≠ [] := by
    intro h
    rw [h] at hn
    exact Nat.not_succ_le_zero 0 hn
  have hb : burst args s = { s with parametersChanged := true } := burst_eq args s hne
  have hfirst : timerCallback H (burst args s)
      = timerUpdate H { s with parametersChanged := false } := by
    rw [hb, timerCallback_of_set H _ rfl]
  have hcalls : (timerCallback H (burst args s)).calls = s.calls ++ updateCalls := by
    rw [hfirst, timerUpdate_calls]
  have hiter : Nat.iterate (timerCallback H) k (burst args s)
      = timerCallback H (burst args s) := by
    obtain ⟨m, rfl⟩ : ∃ m, k = m + 1 := ⟨k - 1, by omega⟩
    exact iterate_timerCallback H _ m (timerCallback_parametersChanged H _)
  refine ⟨hcalls, hiter, ?_, ?_, ?_, ?_, ?_, ?_⟩
  · rw [hiter, hcalls]
  · rw [hiter, hcalls, List.count_append]
    rfl
  · rw [hiter, hcalls, List.count_append]
    rfl
  · rw [hiter, hfirst]
  · rw [hiter, hfirst, timerUpdate_monoChain]
  · rw [hiter]
    exact timerCallback_parametersChanged H _

/-- Witness of C3: two parameter changes and three callbacks on the sample
component. -/
theorem burst_then_callbacks_update_once_witness :
    (1 ≤ [((0 : Int), (1 : ℚ)), (3, 2)].length ∧ 1 ≤ 3)
    ∧ (Nat.iterate (timerCallback sampleHelpers) 3
        (burst [((0 : Int), (1 : ℚ)), (3, 2)] sampleComponent)).calls = updateCalls
    ∧ sampleComponent.monoChain.peak.coefficients = 20
    ∧ (Nat.iterate (timerCallback sampleHelpers) 3
        (burst [((0 : Int), (1 : ℚ)), (3, 2)] sampleComponent)).monoChain.peak.coefficients
        = 48020
    ∧ (Nat.iterate (timerCallback sampleHelpers) 3
        (burst [((0 : Int), (1 : ℚ)), (3, 2)] sampleComponent)).monoChain.lowCut.isBypassed1
        = false
    ∧ (Nat.iterate (timerCallback sampleHelpers) 3
        (burst [((0 : Int), (1 : ℚ)), (3, 2)] sampleComponent)).parametersChanged = false :=
  have h := burst_then_callbacks_update_once sampleHelpers sampleComponent
    [((0 : Int), (1 : ℚ)), (3, 2)] 3 (by decide) (by decide)
  ⟨⟨by decide, by decide⟩, h.2.2.1, rfl,
    by rw [h.2.2.2.2.2.2.1]; norm_num [sampleHelpers, sampleComponent, sampleChain],
    by rw [h.2.2.2.2.2.2.1]; rfl, h.2.2.2.2.2.2.2⟩

/-- C4: when the flag `parametersChanged` is false on entry, `timerCallback` is
a no-op: the state afterwards is the state before, so no call was made (no
chain settings derived, no coefficients computed, no repaint requested), every
stage of `monoChain` keeps its coefficients and bypass flag, and the flag is
still false; hence any number of callbacks in that state leaves it
identical. -/
theorem timerCallback_clear_noop (H : Helpers P A S F C CC)
    (s : ResponseCurveComponent P C) (k : Nat) (h : s.parametersChanged = false) :
    timerCallback H s = s
    ∧ (timerCallback H s).calls = s.calls
    ∧ (timerCallback H s).monoChain = s.monoChain
    ∧ (timerCallback H s).parametersChanged = false
    ∧ Nat.iterate (timerCallback H) k s = s := by
  have h1 : timerCallback H s = s := timerCallback_of_clear H s h
  refine ⟨h1, by rw [h1], by rw [h1], by rw [h1]; exact h, ?_⟩
  exact Function.iterate_fixed h1 k

/-- Witness of C4: four callbacks on the sample component, whose flag is
clear. -/
theorem timerCallback_clear_noop_witness :
    sampleComponent.parametersChanged = false
    ∧ (Nat.iterate (timerCallback sampleHelpers) 4 sampleComponent).calls = []
    ∧ (Nat.iterate (timerCallback sampleHelpers) 4 sampleComponent).monoChain = sampleChain :=
  have h := timerCallback_clear_noop sampleHelpers sampleComponent 4 rfl
  ⟨rfl, by rw [h.2.2.2.2]; rfl, by rw [h.2.2.2.2]; rfl⟩

/-- C5: in `timerCallback` the flag is cleared by the compare-and-set before
any statement of the update runs: after the test-and-clear step the flag is
false; a `parameterValueChanged` that occurs after that step (after any number
`j` of the statements of the update, or after all of them) leaves the flag true
when `timerCallback` returns, while the update in flight completes and is
applied (the chain is the recomputed one); the next `timerCallback` then
performs exactly one further update, which recomputes the chain once more from
the chain that the first one left, and the one after it none. -/
theorem change_during_update_schedules_one (H : Helpers P A S F C CC)
    (s : ResponseCurveComponent P C) (j : Nat) (parameterIndex : Int) (newValue : F) :
    (testAndClear s).1.parametersChanged = false
    ∧ (timerCallbackInterleaved H j (parameterValueChanged parameterIndex newValue)
        s).parametersChanged = true
    ∧ (parameterValueChanged parameterIndex newValue (timerCallback H s)).parametersChanged
        = true
    ∧ timerCallbackInterleaved H j (parameterValueChanged parameterIndex newValue) s
        = parameterValueChanged parameterIndex newValue (timerCallback H s)
    ∧ (timerCallback H
        (timerCallbackInterleaved H j (parameterValueChanged parameterIndex newValue) s)).calls
        = (timerCallback H s).calls ++ updateCalls
    ∧ timerCallback H (timerCallback H
        (timerCallbackInterleaved H j (parameterValueChanged parameterIndex newValue) s))
        = timerCallback H
          (timerCallbackInterleaved H j (parameterValueChanged parameterIndex newValue) s)
    ∧ (timerCallback H
        (timerCallbackInterleaved H j (parameterValueChanged parameterIndex newValue)
          s)).parametersChanged = false
    ∧ (timerCallbackInterleaved H j (parameterValueChanged parameterIndex newValue)
        s).monoChain = (timerCallback H s).monoChain
    ∧ (s.parametersChanged = true →
        (timerCallbackInterleaved H j (parameterValueChanged parameterIndex newValue)
          s).monoChain
        = MonoChain.mk
            (H.updateCutFilter s.monoChain.lowCut
              (H.makeLowCutFilter (H.getChainSettings (H.apvts s.audioProcessor))
                (H.getSampleRate s.audioProcessor))
              (H.lowCutSlope (H.getChainSettings (H.apvts s.audioProcessor))))
            (Filter.mk (H.updateCoefficients s.monoChain.peak.coefficients
              (H.makePeakFilter (H.getChainSettings (H.apvts s.audioProcessor))
                (H.getSampleRate s.audioProcessor))))
            (H.updateCutFilter s.monoChain.highCut
              (H.makeHighCutFilter (H.getChainSettings (H.apvts s.audioProcessor))
                (H.getSampleRate s.audioProcessor))
              (H.highCutSlope (H.getChainSettings (H.apvts s.audioProcessor))))
            s.monoChain.isBypassedLowCut
            s.monoChain.isBypassedPeak
            s.monoChain.isBypassedHighCut)
    ∧ (timerCallback H
        (timerCallbackInterleaved H j (parameterValueChanged parameterIndex newValue)
          s)).monoChain
        = MonoChain.mk
            (H.updateCutFilter (timerCallback H s).monoChain.lowCut
              (H.makeLowCutFilter (H.getChainSettings (H.apvts (timerCallback H s).audioProcessor))
                (H.getSampleRate (timerCallback H s).audioProcessor))
              (H.lowCutSlope (H.getChainSettings (H.apvts (timerCallback H s).audioProcessor))))
            (Filter.mk (H.updateCoefficients (timerCallback H s).monoChain.peak.coefficients
              (H.makePeakFilter (H.getChainSettings (H.apvts (timerCallback H s).audioProcessor))
                (H.getSampleRate (timerCallback H s).audioProcessor))))
            (H.updateCutFilter (timerCallback H s).monoChain.highCut
              (H.makeHighCutFilter (H.getChainSettings (H.apvts (timerCallback H s).audioProcessor))
                (H.getSampleRate (timerCallback H s).audioProcessor))
              (H.highCutSlope (H.getChainSettings (H.apvts (timerCallback H s).audioProcessor))))
            (timerCallback H s).monoChain.isBypassedLowCut
            (timerCallback H s).monoChain.isBypassedPeak
            (timerCallback H s).monoChain.isBypassedHighCut := by
  have hinter : timerCallbackInterleaved H j (parameterValueChanged parameterIndex newValue) s
      = parameterValueChanged parameterIndex newValue (timerCallback H s) := by
    cases hs : s.parametersChanged with
    | false =>
      rw [timerCallback_of_clear H s hs]
      cases s with
      | mk ap mc pc w ht cl =>
        simp only at hs
        subst hs
        rfl
    | true =>
      rw [timerCallback_of_set H s hs]
      have hstep : timerCallbackInterleaved H j
          (parameterValueChanged parameterIndex newValue) s
          = timerUpdateInterleaved H j (parameterValueChanged parameterIndex newValue)
              { s with parametersChanged := false } := by
        cases s with
        | mk ap mc pc w ht cl =>
          simp only at hs
          subst hs
          rfl
      rw [hstep, timerUpdateInterleaved_setFlag]
      rfl
  have hclear : (testAndClear s).1.parametersChanged = false := by
    cases hs : s.parametersChanged <;> simp [testAndClear, compareAndSetBool, hs]
  refine ⟨hclear, ?_, rfl, hinter, ?_, ?_, ?_, ?_, ?_, ?_⟩
  · rw [hinter]; rfl
  · rw [hinter, timerCallback_of_set H _ rfl, timerUpdate_calls]
    rfl
  · exact timerCallback_of_clear H _ (timerCallback_parametersChanged H _)
  · exact timerCallback_parametersChanged H _
  · rw [hinter]; rfl
  · intro hs
    rw [hinter, timerCallback_of_set H s hs]
    exact timerUpdate_monoChain H _
  · rw [hinter, timerCallback_of_set H _ rfl]
    exact timerUpdate_monoChain H _

/-- Witness of C5: the sample component with the flag set, a parameter change
after two statements of the update: the update in flight moves the peak from
`20` to `48020`, the flag is true on return, the next callback moves the peak
to `96020`, and the one after it changes nothing. -/
theorem change_during_update_schedules_one_witness :
    (timerCallbackInterleaved sampleHelpers 2 (parameterValueChanged 5 (1 : ℚ))
        changedComponent).parametersChanged = true
    ∧ (timerCallbackInterleaved sampleHelpers 2 (parameterValueChanged 5 (1 : ℚ))
        changedComponent).monoChain.peak.coefficients
        = 48020
    ∧ (timerCallback sampleHelpers
        (timerCallbackInterleaved sampleHelpers 2 (parameterValueChanged 5 (1 : ℚ))
          changedComponent)).monoChain.peak.coefficients
        = 96020 :=
  have h := change_during_update_schedules_one sampleHelpers
    changedComponent 2 5 (1 : ℚ)
  ⟨h.2.1, by rw [h.2.2.2.2.2.2.2.2.1 rfl]; norm_num [sampleHelpers, changedComponent,
      sampleChain],
    by rw [h.2.2.2.2.2.2.2.2.2, timerCallback_of_set sampleHelpers changedComponent rfl,
      timerUpdate_monoChain, timerUpdate_audioProcessor]
       norm_num [sampleHelpers, changedComponent, sampleChain]⟩

end TimerClaims

/-! ## The chain of the component and the chains of the processor -/

section HeapLemmas

variable {P A S F K CC : Type}

/-- The address of an active stage is an address of the chain. -/
theorem activeCoefficients_subset_chainAddresses (chain : MonoChain Nat) (a : Nat)
    (h : a ∈ activeCoefficients chain) : a ∈ chainAddresses chain := by
  unfold activeCoefficients at h
  rw [List.mem_map] at h
  obtain ⟨st, hst, rfl⟩ := h
  have hmem : st ∈ stages chain := List.mem_of_mem_filter hst
  simp only [stages, List.mem_cons, List.mem_singleton, List.not_mem_nil, or_false] at hmem
  simp only [chainAddresses, cutAddresses, List.mem_cons, List.mem_append,
    List.mem_singleton, List.not_mem_nil, or_false]
  rcases hmem with h | h | h | h | h | h | h | h | h <;> subst h <;> simp

end HeapLemmas

section HeapClaims

variable {P A S F K CC : Type}

end HeapClaims


/-! ## Listener registration -/

section ListenerClaims

/-- The listener array of every parameter after the loop of the constructor. -/
theorem construct_listeners_apply (this : Nat) (params : List Nat) (st : ListenerStore)
    (p : Nat) :
    (construct this params st).listeners p
      = if p ∈ params then (if this ∈ st p then st p else st p ++ [this]) else st p := by
  unfold construct
  dsimp only
  induction params generalizing st with
  | nil => simp
  | cons a t ih =>
    rw [List.foldl_cons, ih]
    by_cases hpa : p = a
    · subst hpa
      by_cases hmem : this ∈ st p
      · simp [addListener, hmem]
      · simp [addListener, hmem]
    · by_cases hpt : p ∈ t
      · simp [addListener, hpa, hpt]
      · simp [addListener, hpa, hpt]

/-- The listener array of every parameter after the loop of the destructor, when
no array holds the component more than once. -/
theorem destroy_apply (this : Nat) (params : List Nat) (st : ListenerStore)
    (hone : ∀ q ∈ params, this ∉ (st q).erase this) (p : Nat) :
    destroy this params st p = if p ∈ params then (st p).erase this else st p := by
  unfold destroy
  induction params generalizing st with
  | nil => simp
  | cons a t ih =>
    have ha : this ∉ (st a).erase this := hone a (List.mem_cons_self a t)
    have hstep : ∀ q ∈ t, this ∉ (removeListener st a this q).erase this := by
      intro q hq
      by_cases hqa : q = a
      · subst hqa
        simp only [removeListener, Function.update_same]
        rw [List.erase_of_not_mem ha]
        exact ha
      · simp only [removeListener, Function.update_noteq hqa]
        exact hone q (List.mem_cons_of_mem a hq)
    rw [List.foldl_cons, ih _ hstep]
    by_cases hpa : p = a
    · subst hpa
      by_cases hpt : p ∈ t
      · simp [removeListener, hpt, List.erase_of_not_mem ha]
      · simp [removeListener, hpt]
    · by_cases hpt : p ∈ t
      · simp [removeListener, hpa, hpt]
      · simp [removeListener, hpa, hpt]

/-- C9: the subscription of the response-curve component is scoped: the
constructor registers the component on every parameter of the processor and
the destructor removes it from every parameter, so for a parameter list that is
the same at construction and destruction (and a component that is new, hence
registered nowhere before its construction) every listener array after
construct-then-destroy is the array before construction, and while the
component is alive every parameter has it as a listener; parameters outside
the list are not touched, and the constructor starts the timer at `60` Hz. -/
theorem listener_subscription_scoped (this : Nat) (params : List Nat) (st : ListenerStore)
    (hfresh : ∀ p ∈ params, this ∉ st p) :
    (∀ p ∈ params, this ∈ (construct this params st).listeners p)
    ∧ (∀ p, p ∉ params → (construct this params st).listeners p = st p)
    ∧ (construct this params st).timerHz = 60
    ∧ destroy this params (construct this params st).listeners = st := by
  have hcons : ∀ p ∈ params, (construct this params st).listeners p = st p ++ [this] := by
    intro p hp
    rw [construct_listeners_apply, if_pos hp, if_neg (hfresh p hp)]
  have herase : ∀ p ∈ params, ((construct this params st).listeners p).erase this = st p := by
    intro p hp
    rw [hcons p hp, List.erase_append_right _ (hfresh p hp)]
    simp
  refine ⟨?_, ?_, rfl, ?_⟩
  · intro p hp
    rw [hcons p hp]
    simp
  · intro p hp
    rw [construct_listeners_apply, if_neg hp]
  · funext p
    rw [destroy_apply this params _ (fun q hq => by rw [herase q hq]; exact hfresh q hq)]
    by_cases hp : p ∈ params
    · rw [if_pos hp, herase p hp]
    · rw [if_neg hp, construct_listeners_apply, if_neg hp]

/-- Witness of C9: the component at address `7`, the parameters `0`, `1` and `2`,
and a store in which parameter `1` already has the listener `4`. -/
theorem listener_subscription_scoped_witness :
    (∀ p ∈ [0, 1, 2], 7 ∉ (fun q => if q = 1 then [4] else []) p)
    ∧ (construct 7 [0, 1, 2] (fun q => if q = 1 then [4] else [])).listeners 1 = [4, 7]
    ∧ destroy 7 [0, 1, 2]
        (construct 7 [0, 1, 2] (fun q => if q = 1 then [4] else [])).listeners 1 = [4] :=
  have hfresh : ∀ p ∈ [0, 1, 2], 7 ∉ (fun q => if q = 1 then [4] else []) p := by
    decide
  have h := listener_subscription_scoped 7 [0, 1, 2] (fun q => if q = 1 then [4] else [])
    hfresh
  ⟨hfresh, by simp [construct, addListener, Function.update], by rw [h.2.2.2]; rfl⟩

end ListenerClaims

end SimpleEQ
